import Mathlib

/-!
Shallow embedding of the matching-game implementation (`src/js/app.js`).

The game is a browser memory-matching game.  The embedding models:

* `Card` with its `toHtml` / `determineType` string round trip;
* `Deck.create` (the `Deck` constructor pushing two cards per type);
* `Deck.shuffle` (the in-place Fisher–Yates loop, with the stream of
  `Math.floor(Math.random() * currentIndex)` draws made explicit as a
  function `rand : Nat → Nat`, where `rand c` is the index drawn while
  `currentIndex = c`, so a faithful draw satisfies `rand c < c`);
* the `Scoreboard` star computation from `updateScore`;
* the `Game` click/restart handlers as a step function on an explicit
  `GameState`.

DOM classes are modelled as per-position boolean lists: `isOpen` stands for
the `open show` classes and `isMatch` for the `match` class.  The 50 ms
`setTimeout` in `Card.show` is abstracted as taking effect at click time
(inputs are modelled as separated by more than the show delay); the 800 ms
`setTimeout` in `Card.hide` is modelled explicitly by a `hideQueue` of
scheduled hides together with an `elapseHide` step that fires them.
A click on a matched card is ignored because `lockMatched` detaches the
click handler from `.match` cards; a click on an `open` card is ignored by
the `hasClass` guard at the top of `handleCardClick`.
-/

/-- A card, identified by its symbol type (`class Card`, field `type`). -/
structure Card where
  type : String
deriving DecidableEq

/-- Card.toHtml: the HTML rendering of a card. -/
def Card.toHtml (c : Card) : String :=
  "<li class=\"card\"><i class=\"fa fa-" ++ c.type ++ "\"></i></li>"

/-- The `class` attribute carried by the `<i>` child element that
`Card.toHtml` renders (what `cardElem.children().attr` reads back). -/
def Card.childClassAttr (c : Card) : String :=
  "fa fa-" ++ c.type

/-- Card.isEqual: two cards are equal when their types coincide. -/
def Card.isEqual (c d : Card) : Bool :=
  c.type == d.type

/-- Card.determineType: `className.substr(6)`, dropping the first six
characters of the child class attribute. -/
def Card.determineType (className : String) : String :=
  String.mk (className.data.drop 6)

/-- Deck constructor body: for each type in order, push two cards of that
type (`cardTypes.forEach` with two `push` calls). -/
def Deck.create : List String → List Card
  | [] => []
  | t :: ts => Card.mk t :: Card.mk t :: Deck.create ts

/-- One iteration body of the shuffle loop: exchange positions `i` and `j`
(the three-assignment swap through `temporaryValue`).  Out-of-range indices
never occur with in-range draws; the model leaves the list unchanged then. -/
def listSwap (l : List α) (i j : Nat) : List α :=
  match l.get? i, l.get? j with
  | some a, some b => (l.set i b).set j a
  | _, _ => l

/-- Deck.shuffle's `while (currentIndex !== 0)` loop: draw
`randomIndex = rand currentIndex`, decrement `currentIndex`, and swap the
positions `currentIndex` and `randomIndex`. -/
def Deck.shuffleLoop (rand : Nat → Nat) : List α → Nat → List α
  | cards, 0 => cards
  | cards, c + 1 => Deck.shuffleLoop rand (listSwap cards c (rand (c + 1))) c

/-- Deck.shuffle: run the loop starting from `currentIndex = cards.length`. -/
def Deck.shuffle (cards : List α) (rand : Nat → Nat) : List α :=
  Deck.shuffleLoop rand cards cards.length

/-- Modelled from the spec: the Fisher–Yates scheme as the spec words it,
"for index i from last down to 1, swap with a random index in [0, i]" —
i.e. the same loop but stopping before the (trivial) `i = 0` iteration. -/
def Deck.shuffleSpecLoop (rand : Nat → Nat) : List α → Nat → List α
  | cards, 0 => cards
  | cards, 1 => cards
  | cards, c + 2 => Deck.shuffleSpecLoop rand (listSwap cards (c + 1) (rand (c + 2))) (c + 1)

/-- Modelled from the spec: Fisher–Yates over the whole list. -/
def Deck.shuffleSpec (cards : List α) (rand : Nat → Nat) : List α :=
  Deck.shuffleSpecLoop rand cards cards.length

/-- Scoreboard.updateScore's star computation: the `newVal` assigned from
the current move count (the DOM star redraw is presentation only and the
stored `stars` always ends up equal to `newVal`). -/
def Scoreboard.updateScore (moves : Nat) : Nat :=
  if moves < 15 then 3 else if moves < 25 then 2 else 1

/-- The state of a running `Game` (deck order, per-position DOM classes,
scheduled hides, the `openCards` pending list by position, and the
scoreboard counters). -/
structure GameState where
  cards : List Card
  cardTypeCount : Nat
  isOpen : List Bool
  isMatch : List Bool
  hideQueue : List Nat
  openCards : List Nat
  matchCount : Nat
  moves : Nat
  stars : Nat
deriving DecidableEq

/-- The card rendered at position `p` (deck order is render order, and
`Card.fromElem` recovers exactly the rendered type, see the
`determineType`/`toHtml` round trip below). -/
def Game.cardAt (s : GameState) (p : Nat) : Card :=
  s.cards.getD p (Card.mk "")

/-- A fresh game as `main` builds it: `new Game(new Deck(cardTypes))`
followed by `game.start()`, whose `deck.display()` shuffles the deck and
renders every card face down. -/
def Game.init (cardTypes : List String) (rand : Nat → Nat) : GameState :=
  let cards := Deck.shuffle (Deck.create cardTypes) rand
  { cards := cards
    cardTypeCount := cardTypes.length
    isOpen := List.replicate cards.length false
    isMatch := List.replicate cards.length false
    hideQueue := []
    openCards := []
    matchCount := 0
    moves := 0
    stars := 3 }

/-- Game.openCard: show the clicked card and push it on `openCards`. -/
def Game.openCard (s : GameState) (p : Nat) : GameState :=
  { s with isOpen := s.isOpen.set p true, openCards := s.openCards ++ [p] }

/-- Game.isMatched: more than one open card and the first two are of equal
type (`openCards[0].isEqual(openCards[1])`). -/
def Game.isMatched (s : GameState) : Bool :=
  decide (s.openCards.length > 1) &&
    (Game.cardAt s (s.openCards.getD 0 0)).isEqual (Game.cardAt s (s.openCards.getD 1 0))

/-- Game.lockMatched: increment `matches`, lock both open cards (add the
`match` class, drop `open show`), and call `finish()` — the emitted Boolean —
when `matches` reaches the deck's card type count. -/
def Game.lockMatched (s : GameState) : GameState × Bool :=
  let a := s.openCards.getD 0 0
  let b := s.openCards.getD 1 0
  let m := s.matchCount + 1
  ({ s with matchCount := m
            isMatch := (s.isMatch.set a true).set b true
            isOpen := (s.isOpen.set a false).set b false },
   decide (m ≥ s.cardTypeCount))

/-- Game.hideUnmatched: schedule `card.hide()` for every open card (each a
`setTimeout` that later removes `open show`). -/
def Game.hideUnmatched (s : GameState) : GameState :=
  if s.openCards.length > 1 then { s with hideQueue := s.hideQueue ++ s.openCards } else s

/-- Scoreboard.incrementMoves as it acts on the game state: bump the move
count and recompute the stars via `updateScore`. -/
def Game.incrementMoves (s : GameState) : GameState :=
  { s with moves := s.moves + 1, stars := Scoreboard.updateScore (s.moves + 1) }

/-- Game.handleCardClick for a click on position `p`.  Returns the next
state together with the Boolean `GameComplete` signal (whether `finish()`
was called during this step).  A position without a card delivers no event;
a card with the `open` class is ignored by the guard; a matched card has no
click handler bound (`lockMatched` re-binds only `.card:not(.match)`). -/
def Game.handleCardClick (s : GameState) (p : Nat) : GameState × Bool :=
  if p ≥ s.cards.length then (s, false)
  else if s.isOpen.getD p false then (s, false)
  else if s.isMatch.getD p false then (s, false)
  else
    let s1 := Game.openCard s p
    if s1.openCards.length > 1 then
      if Game.isMatched s1 then
        let r := Game.lockMatched s1
        (Game.incrementMoves { r.1 with openCards := [] }, r.2)
      else
        (Game.incrementMoves { Game.hideUnmatched s1 with openCards := [] }, false)
    else
      (s1, false)

/-- Game.handleRestart: reset the scoreboard (`moves = 0`, and
`updateScore` then puts the stars back to 3), clear `matches` and
`openCards`, and `deck.display()` — reshuffle the same cards and rebuild
the DOM, so every class is cleared and stale hide timeouts act on detached
elements (modelled as an emptied `hideQueue`). -/
def Game.handleRestart (s : GameState) (rand : Nat → Nat) : GameState :=
  let cards := Deck.shuffle s.cards rand
  { cards := cards
    cardTypeCount := s.cardTypeCount
    isOpen := List.replicate cards.length false
    isMatch := List.replicate cards.length false
    hideQueue := []
    openCards := []
    matchCount := 0
    moves := 0
    stars := Scoreboard.updateScore 0 }

/-- Firing of the pending `Card.hide` timeouts: each scheduled position
loses its `open show` classes, in scheduling order. -/
def Game.elapseHide (s : GameState) : GameState :=
  { s with isOpen := s.hideQueue.foldl (fun acc i => acc.set i false) s.isOpen
           hideQueue := [] }

/-- The states a game session can reach from a fresh game by clicks,
restarts and elapsing hide timers. -/
inductive Game.Reachable : GameState → Prop
  | init (cardTypes : List String) (rand : Nat → Nat) :
      Game.Reachable (Game.init cardTypes rand)
  | click (s : GameState) (p : Nat) :
      Game.Reachable s → Game.Reachable (Game.handleCardClick s p).1
  | restart (s : GameState) (rand : Nat → Nat) :
      Game.Reachable s → Game.Reachable (Game.handleRestart s rand)
  | elapse (s : GameState) :
      Game.Reachable s → Game.Reachable (Game.elapseHide s)

/-! ### Helper lemmas about `List.set`, the hide fold, and `listSwap` -/

theorem getD_set_self (l : List α) (i : Nat) (a d : α) (h : i < l.length) :
    (l.set i a).getD i d = a := by
  simp [List.getD_eq_getElem?_getD, List.getElem?_set, h]

theorem getD_set_ne (l : List α) (i j : Nat) (a d : α) (h : i ≠ j) :
    (l.set i a).getD j d = l.getD j d := by
  simp [List.getD_eq_getElem?_getD, List.getElem?_set, h]

theorem length_foldl_setFalse (qs : List Nat) (acc : List Bool) :
    (qs.foldl (fun a i => a.set i false) acc).length = acc.length := by
  induction qs generalizing acc with
  | nil => rfl
  | cons q qs ih => simp [List.foldl_cons, ih]

theorem getD_foldl_setFalse_not_mem (qs : List Nat) (acc : List Bool) (p : Nat)
    (h : p ∉ qs) : (qs.foldl (fun a i => a.set i false) acc).getD p false = acc.getD p false := by
  induction qs generalizing acc with
  | nil => rfl
  | cons q qs ih =>
    simp only [List.mem_cons, not_or] at h
    rw [List.foldl_cons, ih _ h.2, getD_set_ne _ _ _ _ _ (fun hq => h.1 hq.symm)]

theorem getD_foldl_setFalse_stays (qs : List Nat) (acc : List Bool) (p : Nat)
    (h : acc.getD p false = false) :
    (qs.foldl (fun a i => a.set i false) acc).getD p false = false := by
  induction qs generalizing acc with
  | nil => exact h
  | cons q qs ih =>
    rw [List.foldl_cons]
    refine ih _ ?_
    by_cases hq : q = p
    · subst hq
      by_cases hlt : q < acc.length
      · exact getD_set_self _ _ _ _ hlt
      · rw [List.set_eq_of_length_le (Nat.le_of_not_lt hlt)]
        exact h
    · rw [getD_set_ne _ _ _ _ _ hq]
      exact h

theorem getD_foldl_setFalse_mem (qs : List Nat) (acc : List Bool) (p : Nat)
    (h : p ∈ qs) : (qs.foldl (fun a i => a.set i false) acc).getD p false = false := by
  induction qs generalizing acc with
  | nil => cases h
  | cons q qs ih =>
    rw [List.foldl_cons]
    rcases List.mem_cons.mp h with h1 | h2
    · subst h1
      refine getD_foldl_setFalse_stays _ _ _ ?_
      by_cases hlt : p < acc.length
      · exact getD_set_self _ _ _ _ hlt
      · rw [List.set_eq_of_length_le (Nat.le_of_not_lt hlt)]
        simp [List.getD_eq_getElem?_getD, List.getElem?_eq_none (Nat.le_of_not_lt hlt)]
    · exact ih _ h2

theorem cons_set_perm (t : List α) (k : Nat) (b x : α) (h : t.get? k = some b) :
    (b :: t.set k x).Perm (x :: t) := by
  induction t generalizing k with
  | nil => simp at h
  | cons y t ih =>
    cases k with
    | zero =>
      simp only [List.get?_cons_zero, Option.some.injEq] at h
      subst h
      exact List.Perm.swap x y t
    | succ k =>
      simp only [List.get?_cons_succ] at h
      have step1 : ((y :: t).set (k + 1) x) = y :: t.set k x := by simp
      rw [step1]
      exact (List.Perm.swap y b _).trans (((ih k h).cons y).trans (List.Perm.swap x y t))

theorem set_set_perm (l : List α) (i j : Nat) (a b : α)
    (hi : l.get? i = some a) (hj : l.get? j = some b) :
    ((l.set i b).set j a).Perm l := by
  induction l generalizing i j with
  | nil => simp at hi
  | cons x t ih =>
    cases i with
    | zero =>
      simp only [List.get?_cons_zero, Option.some.injEq] at hi
      subst hi
      cases j with
      | zero =>
        simp only [List.get?_cons_zero, Option.some.injEq] at hj
        subst hj
        simp
      | succ k =>
        simp only [List.get?_cons_succ] at hj
        simpa using cons_set_perm t k b x hj
    | succ m =>
      simp only [List.get?_cons_succ] at hi
      cases j with
      | zero =>
        simp only [List.get?_cons_zero, Option.some.injEq] at hj
        subst hj
        simpa using cons_set_perm t m a x hi
      | succ k =>
        simp only [List.get?_cons_succ] at hj
        simpa using (ih m k hi hj).cons x

theorem listSwap_perm (l : List α) (i j : Nat) : (listSwap l i j).Perm l := by
  unfold listSwap
  cases hi : l.get? i with
  | none => exact List.Perm.refl l
  | some a =>
    cases hj : l.get? j with
    | none => exact List.Perm.refl l
    | some b => exact set_set_perm l i j a b hi hj

theorem listSwap_length (l : List α) (i j : Nat) : (listSwap l i j).length = l.length :=
  (listSwap_perm l i j).length_eq

theorem shuffleLoop_perm (rand : Nat → Nat) (n : Nat) (cards : List α) :
    (Deck.shuffleLoop rand cards n).Perm cards := by
  induction n generalizing cards with
  | zero => exact List.Perm.refl cards
  | succ c ih => exact (ih _).trans (listSwap_perm cards c (rand (c + 1)))

theorem Deck.shuffle_perm (cards : List α) (rand : Nat → Nat) :
    (Deck.shuffle cards rand).Perm cards :=
  shuffleLoop_perm rand cards.length cards

theorem Deck.shuffle_length (cards : List α) (rand : Nat → Nat) :
    (Deck.shuffle cards rand).length = cards.length :=
  (Deck.shuffle_perm cards rand).length_eq

theorem set_get?_self (l : List α) (i : Nat) (a : α) (h : l.get? i = some a) :
    l.set i a = l := by
  induction l generalizing i with
  | nil => simp at h
  | cons x t ih =>
    cases i with
    | zero =>
      simp only [List.get?_cons_zero, Option.some.injEq] at h
      subst h
      rfl
    | succ k =>
      simp only [List.get?_cons_succ] at h
      simp [List.set_cons_succ, ih k h]

theorem listSwap_self (l : List α) (i : Nat) : listSwap l i i = l := by
  unfold listSwap
  cases hi : l.get? i with
  | none => rfl
  | some a =>
    show (l.set i a).set i a = l
    rw [List.set_set, set_get?_self l i a hi]

theorem shuffleLoop_eq_specLoop (rand : Nat → Nat) (h : ∀ c, rand (c + 1) ≤ c) :
    ∀ (n : Nat) (cards : List α),
      Deck.shuffleLoop rand cards n = Deck.shuffleSpecLoop rand cards n
  | 0, _ => rfl
  | 1, cards => by
    have h0 : rand 1 = 0 := Nat.le_zero.mp (h 0)
    show Deck.shuffleLoop rand (listSwap cards 0 (rand 1)) 0 = cards
    rw [h0, listSwap_self]
    rfl
  | c + 2, cards => by
    show Deck.shuffleLoop rand (listSwap cards (c + 1) (rand (c + 2))) (c + 1) =
      Deck.shuffleSpecLoop rand (listSwap cards (c + 1) (rand (c + 2))) (c + 1)
    exact shuffleLoop_eq_specLoop rand h (c + 1) _

theorem Deck.create_length (ts : List String) : (Deck.create ts).length = 2 * ts.length := by
  induction ts with
  | nil => rfl
  | cons t ts ih =>
    simp [Deck.create, ih]
    omega

theorem Deck.create_typeCount (x : String) (ts : List String) :
    ((Deck.create ts).map Card.type).count x = 2 * ts.count x := by
  induction ts with
  | nil => rfl
  | cons t ts ih =>
    simp only [Deck.create, List.map_cons, List.count_cons, ih]
    by_cases hx : t = x
    · simp [hx]
      omega
    · simp [hx]

/-- C1: the `Deck` constructor, fed a list of (distinct) card types, builds
a deck of exactly `2 * len(types)` cards in which every listed type appears
exactly twice. -/
theorem C1_createDeck_composition (ts : List String) (hnd : ts.Nodup) :
    (Deck.create ts).length = 2 * ts.length ∧
    ∀ t ∈ ts, ((Deck.create ts).map Card.type).count t = 2 := by
  refine ⟨Deck.create_length ts, fun t ht => ?_⟩
  rw [Deck.create_typeCount, List.count_eq_one_of_mem hnd ht]

theorem C1_createDeck_composition_witness :
    (["anchor", "bicycle"] : List String).Nodup ∧
    ((Deck.create ["anchor", "bicycle"]).length = 2 * (["anchor", "bicycle"] : List String).length ∧
     ∀ t ∈ (["anchor", "bicycle"] : List String),
       ((Deck.create ["anchor", "bicycle"]).map Card.type).count t = 2) :=
  ⟨by decide, C1_createDeck_composition ["anchor", "bicycle"] (by decide)⟩

/-- C4: the star rating computed by `updateScore` is 3 below 15 moves, 2
from 15 up to 24 moves, and 1 from 25 moves on; in particular at move
counts 0, 14, 15, 24, 25 and 1000. -/
theorem C4_computeStars (m : Nat) :
    (m < 15 → Scoreboard.updateScore m = 3) ∧
    (15 ≤ m → m < 25 → Scoreboard.updateScore m = 2) ∧
    (25 ≤ m → Scoreboard.updateScore m = 1) ∧
    Scoreboard.updateScore 0 = 3 ∧ Scoreboard.updateScore 14 = 3 ∧
    Scoreboard.updateScore 15 = 2 ∧ Scoreboard.updateScore 24 = 2 ∧
    Scoreboard.updateScore 25 = 1 ∧ Scoreboard.updateScore 1000 = 1 := by
  unfold Scoreboard.updateScore
  refine ⟨fun h1 => ?_, fun h1 h2 => ?_, fun h1 => ?_, ?_, ?_, ?_, ?_, ?_, ?_⟩ <;>
    first
      | rfl
      | (split_ifs <;> omega)

theorem C4_computeStars_witness :
    Scoreboard.updateScore 14 = 3 ∧ Scoreboard.updateScore 16 = 2 ∧
    Scoreboard.updateScore 30 = 1 :=
  ⟨(C4_computeStars 14).1 (by decide),
   (C4_computeStars 16).2.1 (by decide) (by decide),
   (C4_computeStars 30).2.2.1 (by decide)⟩

/-- C7: for every deck and every in-range stream of random draws, `shuffle`
permutes the deck (the card multiset is unchanged) and coincides with the
Fisher–Yates scheme of the spec — index `i` from last down to 1 swapped
with a drawn position in `[0, i]` (the implementation's extra `i = 0`
iteration is the identity swap). -/
theorem C7_shuffle_permutation (cards : List Card) (rand : Nat → Nat)
    (h : ∀ c, rand (c + 1) ≤ c) :
    (Deck.shuffle cards rand).Perm cards ∧
    Deck.shuffle cards rand = Deck.shuffleSpec cards rand :=
  ⟨Deck.shuffle_perm cards rand,
   shuffleLoop_eq_specLoop rand h cards.length cards⟩

theorem C7_shuffle_permutation_witness :
    ((Deck.shuffle (Deck.create ["bolt", "bomb"]) (fun _ => 0)).Perm
      (Deck.create ["bolt", "bomb"])) ∧
    Deck.shuffle (Deck.create ["bolt", "bomb"]) (fun _ => 0) =
      Deck.shuffleSpec (Deck.create ["bolt", "bomb"]) (fun _ => 0) :=
  C7_shuffle_permutation (Deck.create ["bolt", "bomb"]) (fun _ => 0)
    (fun c => Nat.zero_le c)

/-- C10: reading a card's type back from the class attribute of the child
element rendered by `toHtml` returns the original type: the class string is
the six characters of a fixed marker followed by the type, and
`determineType` drops exactly those six characters. -/
theorem C10_determineType_inverts_toHtml (t : String) :
    Card.determineType (Card.childClassAttr (Card.mk t)) = t ∧
    Card.toHtml (Card.mk t) =
      "<li class=\"card\"><i class=\"" ++ Card.childClassAttr (Card.mk t) ++ "\"></i></li>" := by
  constructor
  · cases t with
    | mk data =>
      show String.mk ((("fa fa-" : String) ++ String.mk data).data.drop 6) = String.mk data
      rw [String.data_append]
      rfl
  · cases t with
    | mk data =>
      apply String.ext
      simp [Card.toHtml, Card.childClassAttr, String.data_append]

/-! ### Claims about the game state machine -/

/-- C6: a restart clears the pending set, zeroes the matched-pair count and
the move counter, and replaces the deck order by a fresh shuffle of the
same cards (same multiset), returning the turn machine to the idle state. -/
theorem C6_restart_resets (s : GameState) (rand : Nat → Nat) :
    (Game.handleRestart s rand).openCards = [] ∧
    (Game.handleRestart s rand).matchCount = 0 ∧
    (Game.handleRestart s rand).moves = 0 ∧
    (Game.handleRestart s rand).cards = Deck.shuffle s.cards rand ∧
    (Game.handleRestart s rand).cards.Perm s.cards :=
  ⟨rfl, rfl, rfl, rfl, Deck.shuffle_perm s.cards rand⟩

/-- C8: an empty type list yields an empty deck, and the fresh game already
has `matchCount ≥ cardTypeCount`; but no `GameComplete` signal is ever
emitted for it — `finish()` is only reachable from `lockMatched` after a
card click, and every click input on the empty game is a no-op that emits
no signal.  This contradicts the spec's requirement that such a game be
immediately considered complete. -/
theorem C8_empty_deck_never_finishes (rand : Nat → Nat) (p : Nat) :
    Deck.create [] = [] ∧
    (Game.init [] rand).cards = [] ∧
    (Game.init [] rand).matchCount ≥ (Game.init [] rand).cardTypeCount ∧
    Game.handleCardClick (Game.init [] rand) p = (Game.init [] rand, false) := by
  refine ⟨rfl, rfl, Nat.le_refl 0, ?_⟩
  simp [Game.handleCardClick, Game.init, Deck.shuffle, Deck.shuffleLoop, Deck.create]

theorem click_match_eq (s : GameState) (p q : Nat)
    (hq : q < s.cards.length)
    (hqo : s.isOpen.getD q false = false)
    (hqm : s.isMatch.getD q false = false)
    (hpend : s.openCards = [p])
    (heq : (Game.cardAt s p).type = (Game.cardAt s q).type) :
    Game.handleCardClick s q =
      ({ s with isOpen := ((s.isOpen.set q true).set p false).set q false
                isMatch := (s.isMatch.set p true).set q true
                openCards := []
                matchCount := s.matchCount + 1
                moves := s.moves + 1
                stars := Scoreboard.updateScore (s.moves + 1) },
       decide (s.matchCount + 1 ≥ s.cardTypeCount)) := by
  have hg1 : ¬ (q ≥ s.cards.length) := Nat.not_le.mpr hq
  simp only [Game.handleCardClick, hg1, if_false, hqo, hqm, Bool.false_eq_true,
    Game.openCard, hpend, List.cons_append, List.nil_append, List.length_cons,
    List.length_nil, gt_iff_lt, Game.isMatched, Game.cardAt, Game.lockMatched,
    Game.incrementMoves, Card.isEqual, List.getD_cons_zero, List.getD_cons_succ,
    heq, beq_self_eq_true, Bool.and_true, decide_eq_true_eq, if_true]
  simp
  intro hc
  simp only [Game.cardAt, List.getD_eq_getElem?_getD] at heq
  exact absurd heq hc

theorem click_mismatch_eq (s : GameState) (p q : Nat)
    (hq : q < s.cards.length)
    (hqo : s.isOpen.getD q false = false)
    (hqm : s.isMatch.getD q false = false)
    (hpend : s.openCards = [p])
    (hne : (Game.cardAt s p).type ≠ (Game.cardAt s q).type) :
    Game.handleCardClick s q =
      ({ s with isOpen := s.isOpen.set q true
                hideQueue := s.hideQueue ++ [p, q]
                openCards := []
                moves := s.moves + 1
                stars := Scoreboard.updateScore (s.moves + 1) },
       false) := by
  have hg1 : ¬ (q ≥ s.cards.length) := Nat.not_le.mpr hq
  simp only [Game.handleCardClick, hg1, if_false, hqo, hqm, Bool.false_eq_true,
    Game.openCard, hpend, List.cons_append, List.nil_append, List.length_cons,
    List.length_nil, gt_iff_lt, Game.isMatched, Game.cardAt, Game.hideUnmatched,
    Game.incrementMoves, Card.isEqual, List.getD_cons_zero, List.getD_cons_succ,
    bne_iff_ne, ne_eq, beq_eq_false_iff_ne]
  simp [hne]
  intro hc
  simp only [Game.cardAt, List.getD_eq_getElem?_getD] at hne
  exact absurd hc hne

/-- C2: revealing a second card of the same type as the pending card locks
both cards into the matched state (the `match` class is added, `open show`
removed), clears the pending set, increments the move counter and the
matched-pair count by exactly one, and emits the `GameComplete` signal
exactly when the new matched-pair count equals the number of card types. -/
theorem C2_match_resolution (s : GameState) (p q : Nat)
    (hp : p < s.cards.length)
    (hq : q < s.cards.length)
    (hWFo : s.isOpen.length = s.cards.length)
    (hWFm : s.isMatch.length = s.cards.length)
    (hpend : s.openCards = [p])
    (hqo : s.isOpen.getD q false = false)
    (hqm : s.isMatch.getD q false = false)
    (heq : (Game.cardAt s p).type = (Game.cardAt s q).type)
    (hmc : s.matchCount < s.cardTypeCount) :
    (Game.handleCardClick s q).1.isMatch.getD p false = true ∧
    (Game.handleCardClick s q).1.isMatch.getD q false = true ∧
    (Game.handleCardClick s q).1.isOpen.getD p false = false ∧
    (Game.handleCardClick s q).1.isOpen.getD q false = false ∧
    (Game.handleCardClick s q).1.openCards = [] ∧
    (Game.handleCardClick s q).1.moves = s.moves + 1 ∧
    (Game.handleCardClick s q).1.matchCount = s.matchCount + 1 ∧
    ((Game.handleCardClick s q).2 = true ↔ s.matchCount + 1 = s.cardTypeCount) := by
  rw [click_match_eq s p q hq hqo hqm hpend heq]
  refine ⟨?_, ?_, ?_, ?_, rfl, rfl, rfl, ?_⟩
  · by_cases hpq : p = q
    · subst hpq
      exact getD_set_self _ _ _ _ (by simp [hWFm, hp])
    · rw [getD_set_ne _ _ _ _ _ (fun hc => hpq hc.symm)]
      exact getD_set_self _ _ _ _ (by simp [hWFm, hp])
  · exact getD_set_self _ _ _ _ (by simp [hWFm, hq])
  · by_cases hpq : p = q
    · subst hpq
      exact getD_set_self _ _ _ _ (by simp [hWFo, hp])
    · rw [getD_set_ne _ _ _ _ _ (fun hc => hpq hc.symm)]
      exact getD_set_self _ _ _ _ (by simp [hWFo, hp])
  · exact getD_set_self _ _ _ _ (by simp [hWFo, hq])
  · simp only [decide_eq_true_eq, ge_iff_le]
    omega

/-- A one-pair game mid-turn: the first `cube` card is pending and open. -/
def matchDemoState : GameState :=
  { cards := [Card.mk "cube", Card.mk "cube"]
    cardTypeCount := 1
    isOpen := [true, false]
    isMatch := [false, false]
    hideQueue := []
    openCards := [0]
    matchCount := 0
    moves := 0
    stars := 3 }

theorem C2_match_resolution_witness :
    (Game.handleCardClick matchDemoState 1).1.isMatch.getD 0 false = true ∧
    (Game.handleCardClick matchDemoState 1).1.isMatch.getD 1 false = true ∧
    (Game.handleCardClick matchDemoState 1).1.isOpen.getD 0 false = false ∧
    (Game.handleCardClick matchDemoState 1).1.isOpen.getD 1 false = false ∧
    (Game.handleCardClick matchDemoState 1).1.openCards = [] ∧
    (Game.handleCardClick matchDemoState 1).1.moves = matchDemoState.moves + 1 ∧
    (Game.handleCardClick matchDemoState 1).1.matchCount = matchDemoState.matchCount + 1 ∧
    ((Game.handleCardClick matchDemoState 1).2 = true ↔
      matchDemoState.matchCount + 1 = matchDemoState.cardTypeCount) :=
  C2_match_resolution matchDemoState 0 1 (by decide) (by decide) rfl rfl rfl rfl rfl rfl
    (by decide)

/-- C3: revealing a second card of a different type increments the move
counter by one, leaves the matched-pair count unchanged, clears the pending
set, and schedules both cards' hide timeouts, after which both cards are
hidden again. -/
theorem C3_mismatch_resolution (s : GameState) (p q : Nat)
    (hq : q < s.cards.length)
    (hpend : s.openCards = [p])
    (hqo : s.isOpen.getD q false = false)
    (hqm : s.isMatch.getD q false = false)
    (hne : (Game.cardAt s p).type ≠ (Game.cardAt s q).type) :
    (Game.handleCardClick s q).1.moves = s.moves + 1 ∧
    (Game.handleCardClick s q).1.matchCount = s.matchCount ∧
    (Game.handleCardClick s q).1.openCards = [] ∧
    (Game.handleCardClick s q).1.hideQueue = s.hideQueue ++ [p, q] ∧
    (Game.elapseHide (Game.handleCardClick s q).1).isOpen.getD p false = false ∧
    (Game.elapseHide (Game.handleCardClick s q).1).isOpen.getD q false = false ∧
    (Game.handleCardClick s q).2 = false := by
  rw [click_mismatch_eq s p q hq hqo hqm hpend hne]
  refine ⟨rfl, rfl, rfl, rfl, ?_, ?_, rfl⟩
  · exact getD_foldl_setFalse_mem _ _ _ (by simp)
  · exact getD_foldl_setFalse_mem _ _ _ (by simp)

/-- A two-pair game mid-turn: the `bolt` card at position 0 is pending. -/
def mismatchDemoState : GameState :=
  { cards := [Card.mk "bolt", Card.mk "bomb", Card.mk "bolt", Card.mk "bomb"]
    cardTypeCount := 2
    isOpen := [true, false, false, false]
    isMatch := [false, false, false, false]
    hideQueue := []
    openCards := [0]
    matchCount := 0
    moves := 0
    stars := 3 }

theorem C3_mismatch_resolution_witness :
    (Game.handleCardClick mismatchDemoState 1).1.moves = mismatchDemoState.moves + 1 ∧
    (Game.handleCardClick mismatchDemoState 1).1.matchCount = mismatchDemoState.matchCount ∧
    (Game.handleCardClick mismatchDemoState 1).1.openCards = [] ∧
    (Game.handleCardClick mismatchDemoState 1).1.hideQueue =
      mismatchDemoState.hideQueue ++ [0, 1] ∧
    (Game.elapseHide (Game.handleCardClick mismatchDemoState 1).1).isOpen.getD 0 false = false ∧
    (Game.elapseHide (Game.handleCardClick mismatchDemoState 1).1).isOpen.getD 1 false = false ∧
    (Game.handleCardClick mismatchDemoState 1).2 = false :=
  C3_mismatch_resolution mismatchDemoState 0 1 (by decide) rfl rfl rfl (by decide)

theorem click_ignored_eq (s : GameState) (p : Nat)
    (h : p ≥ s.cards.length ∨ s.isOpen.getD p false = true ∨ s.isMatch.getD p false = true) :
    Game.handleCardClick s p = (s, false) := by
  unfold Game.handleCardClick
  split_ifs with h1 h2 h3
  · rfl
  · rfl
  · rfl
  · exfalso
    rcases h with h | h | h
    · exact h1 h
    · exact h2 h
    · exact h3 h

theorem click_first_eq (s : GameState) (p : Nat)
    (hq : p < s.cards.length)
    (hpo : s.isOpen.getD p false = false)
    (hpm : s.isMatch.getD p false = false)
    (hpend : s.openCards = []) :
    Game.handleCardClick s p =
      ({ s with isOpen := s.isOpen.set p true, openCards := [p] }, false) := by
  have hg1 : ¬ (p ≥ s.cards.length) := Nat.not_le.mpr hq
  simp only [List.getD_eq_getElem?_getD] at hpo hpm
  simp [Game.handleCardClick, hg1, hpo, hpm, Game.openCard, hpend]

/-- The session invariant maintained by every reachable game state: the
class lists cover the deck, at most one card is pending between inputs,
pending and hide-scheduled cards still carry the `open` class, and no
pending card has a hide pending on it. -/
structure GameInv (s : GameState) : Prop where
  lenOpen : s.isOpen.length = s.cards.length
  lenMatch : s.isMatch.length = s.cards.length
  pendingLen : s.openCards.length ≤ 1
  pendingOpen : ∀ r ∈ s.openCards, s.isOpen.getD r false = true
  queueOpen : ∀ r ∈ s.hideQueue, s.isOpen.getD r false = true
  pendingNotQueued : ∀ r ∈ s.openCards, r ∉ s.hideQueue

theorem inv_init (cardTypes : List String) (rand : Nat → Nat) :
    GameInv (Game.init cardTypes rand) := by
  constructor <;> simp [Game.init]

theorem inv_restart (s : GameState) (rand : Nat → Nat) :
    GameInv (Game.handleRestart s rand) := by
  constructor <;> simp [Game.handleRestart]

theorem inv_elapse (s : GameState) (h : GameInv s) : GameInv (Game.elapseHide s) := by
  refine ⟨?_, h.lenMatch, h.pendingLen, ?_, ?_, ?_⟩
  · show (s.hideQueue.foldl (fun acc i => acc.set i false) s.isOpen).length = s.cards.length
    rw [length_foldl_setFalse]
    exact h.lenOpen
  · intro r hr
    show (s.hideQueue.foldl (fun acc i => acc.set i false) s.isOpen).getD r false = true
    rw [getD_foldl_setFalse_not_mem _ _ _ (h.pendingNotQueued r hr)]
    exact h.pendingOpen r hr
  · intro r hr
    exact absurd hr (List.not_mem_nil r)
  · intro r _ hr
    exact absurd hr (List.not_mem_nil r)

theorem inv_click (s : GameState) (p : Nat) (h : GameInv s) :
    GameInv (Game.handleCardClick s p).1 := by
  by_cases h1 : p ≥ s.cards.length
  · rw [click_ignored_eq s p (Or.inl h1)]
    exact h
  by_cases h2 : s.isOpen.getD p false = true
  · rw [click_ignored_eq s p (Or.inr (Or.inl h2))]
    exact h
  by_cases h3 : s.isMatch.getD p false = true
  · rw [click_ignored_eq s p (Or.inr (Or.inr h3))]
    exact h
  have hq : p < s.cards.length := Nat.not_le.mp h1
  have hpo : s.isOpen.getD p false = false := by
    revert h2
    cases s.isOpen.getD p false <;> simp
  have hpm : s.isMatch.getD p false = false := by
    revert h3
    cases s.isMatch.getD p false <;> simp
  have hpq : p ∉ s.hideQueue := fun hmem => by
    rw [h.queueOpen p hmem] at hpo
    cases hpo
  cases hoc : s.openCards with
  | nil =>
    rw [click_first_eq s p hq hpo hpm hoc]
    refine ⟨?_, h.lenMatch, by simp, ?_, ?_, ?_⟩
    · show (s.isOpen.set p true).length = s.cards.length
      rw [List.length_set]
      exact h.lenOpen
    · intro r hr
      rw [List.mem_singleton] at hr
      subst hr
      exact getD_set_self _ _ _ _ (by rw [h.lenOpen]; exact hq)
    · intro r hr
      have hrp : p ≠ r := fun hc => hpq (hc ▸ hr)
      show (s.isOpen.set p true).getD r false = true
      rw [getD_set_ne _ _ _ _ _ hrp]
      exact h.queueOpen r hr
    · intro r hr
      rw [List.mem_singleton] at hr
      subst hr
      exact hpq
  | cons a t =>
    have ht : t = [] := by
      have hlp := h.pendingLen
      rw [hoc] at hlp
      simp at hlp
      exact hlp
    subst ht
    have ha : s.isOpen.getD a false = true := h.pendingOpen a (by rw [hoc]; simp)
    have hap : a ≠ p := fun hc => by
      rw [hc, hpo] at ha
      cases ha
    have haq : a ∉ s.hideQueue := h.pendingNotQueued a (by rw [hoc]; simp)
    by_cases hty : (Game.cardAt s a).type = (Game.cardAt s p).type
    · rw [click_match_eq s a p hq hpo hpm hoc hty]
      refine ⟨?_, ?_, by simp, ?_, ?_, ?_⟩
      · show (((s.isOpen.set p true).set a false).set p false).length = s.cards.length
        simp [h.lenOpen]
      · show ((s.isMatch.set a true).set p true).length = s.cards.length
        simp [h.lenMatch]
      · intro r hr
        exact absurd hr (List.not_mem_nil r)
      · intro r hr
        have hrp : p ≠ r := fun hc => hpq (hc ▸ hr)
        have hra : a ≠ r := fun hc => haq (hc ▸ hr)
        show ((((s.isOpen.set p true).set a false).set p false)).getD r false = true
        rw [getD_set_ne _ _ _ _ _ hrp, getD_set_ne _ _ _ _ _ hra,
          getD_set_ne _ _ _ _ _ hrp]
        exact h.queueOpen r hr
      · intro r hr
        exact absurd hr (List.not_mem_nil r)
    · rw [click_mismatch_eq s a p hq hpo hpm hoc hty]
      refine ⟨?_, h.lenMatch, by simp, ?_, ?_, ?_⟩
      · show (s.isOpen.set p true).length = s.cards.length
        simp [h.lenOpen]
      · intro r hr
        exact absurd hr (List.not_mem_nil r)
      · intro r hr
        show (s.isOpen.set p true).getD r false = true
        rw [List.mem_append] at hr
        rcases hr with hr | hr
        · have hrp : p ≠ r := fun hc => hpq (hc ▸ hr)
          rw [getD_set_ne _ _ _ _ _ hrp]
          exact h.queueOpen r hr
        · rw [List.mem_cons, List.mem_singleton] at hr
          rcases hr with hr | hr
          · subst hr
            rw [getD_set_ne _ _ _ _ _ (fun hc => hap hc.symm)]
            exact ha
          · subst hr
            exact getD_set_self _ _ _ _ (by rw [h.lenOpen]; exact hq)
      · intro r hr
        exact absurd hr (List.not_mem_nil r)

theorem inv_reachable (s : GameState) (h : Game.Reachable s) : GameInv s := by
  induction h with
  | init cardTypes rand => exact inv_init cardTypes rand
  | click s p _ ih => exact inv_click s p ih
  | restart s rand _ ih => exact inv_restart s rand
  | elapse s _ ih => exact inv_elapse s ih

/-- C5: in every reachable state, a reveal input on a card that is already
matched, or on the sole pending card of the current turn, is ignored: the
state is returned unchanged and no signal is emitted. -/
theorem C5_ignored_reveal (s : GameState) (p : Nat) (h : Game.Reachable s)
    (hp : s.isMatch.getD p false = true ∨ s.openCards = [p]) :
    Game.handleCardClick s p = (s, false) := by
  rcases hp with hm | hpend
  · exact click_ignored_eq s p (Or.inr (Or.inr hm))
  · exact click_ignored_eq s p
      (Or.inr (Or.inl ((inv_reachable s h).pendingOpen p (by rw [hpend]; simp))))

/-- A reachable one-pair game in which position 0 is the pending card. -/
def pendingDemoState : GameState :=
  (Game.handleCardClick (Game.init ["paper-plane"] (fun _ => 0)) 0).1

theorem C5_ignored_reveal_witness :
    Game.handleCardClick pendingDemoState 0 = (pendingDemoState, false) :=
  C5_ignored_reveal pendingDemoState 0
    (Game.Reachable.click _ 0 (Game.Reachable.init ["paper-plane"] (fun _ => 0)))
    (Or.inr (by decide))

/-- C9: in every reachable state the pending set has size at most 1 between
inputs, opening one more card makes it at most 2, and a click step leaves
at most 1 pending: whenever the pending set would reach size 2 during a
click, the same step either resolves it to empty or the input was ignored
and the set never grew. -/
theorem C9_pending_bound (s : GameState) (h : Game.Reachable s) :
    s.openCards.length ≤ 1 ∧
    (∀ p, (Game.openCard s p).openCards.length ≤ 2) ∧
    (∀ p, (Game.handleCardClick s p).1.openCards.length ≤ 1) ∧
    (∀ p, (Game.openCard s p).openCards.length = 2 →
      (Game.handleCardClick s p).1.openCards = [] ∨
        Game.handleCardClick s p = (s, false)) := by
  have hinv := inv_reachable s h
  refine ⟨hinv.pendingLen, fun p => ?_, fun p => (inv_click s p hinv).pendingLen,
    fun p h2 => ?_⟩
  · have := hinv.pendingLen
    simp [Game.openCard]
    omega
  · by_cases h1 : p ≥ s.cards.length
    · exact Or.inr (click_ignored_eq s p (Or.inl h1))
    by_cases hop : s.isOpen.getD p false = true
    · exact Or.inr (click_ignored_eq s p (Or.inr (Or.inl hop)))
    by_cases hmt : s.isMatch.getD p false = true
    · exact Or.inr (click_ignored_eq s p (Or.inr (Or.inr hmt)))
    left
    have hq : p < s.cards.length := Nat.not_le.mp h1
    have hpo : s.isOpen.getD p false = false := by
      revert hop
      cases s.isOpen.getD p false <;> simp
    have hpm : s.isMatch.getD p false = false := by
      revert hmt
      cases s.isMatch.getD p false <;> simp
    obtain ⟨a, ha⟩ : ∃ a, s.openCards = [a] := by
      cases hoc : s.openCards with
      | nil =>
        rw [Game.openCard] at h2
        rw [hoc] at h2
        simp at h2
      | cons a t =>
        have hlp := hinv.pendingLen
        rw [hoc] at hlp
        simp at hlp
        exact ⟨a, by rw [hlp]⟩
    by_cases hty : (Game.cardAt s a).type = (Game.cardAt s p).type
    · rw [click_match_eq s a p hq hpo hpm ha hty]
    · rw [click_mismatch_eq s a p hq hpo hpm ha hty]

theorem C9_pending_bound_witness :
    (Game.init ["leaf"] (fun _ => 0)).openCards.length ≤ 1 ∧
    (Game.openCard (Game.init ["leaf"] (fun _ => 0)) 0).openCards.length ≤ 2 ∧
    (Game.handleCardClick (Game.init ["leaf"] (fun _ => 0)) 0).1.openCards.length ≤ 1 :=
  ⟨(C9_pending_bound _ (Game.Reachable.init ["leaf"] (fun _ => 0))).1,
   (C9_pending_bound _ (Game.Reachable.init ["leaf"] (fun _ => 0))).2.1 0,
   (C9_pending_bound _ (Game.Reachable.init ["leaf"] (fun _ => 0))).2.2.1 0⟩
